import Mathlib

/-!
Verification of the flexible_freeze maintenance scheduler
(`src/scripts/flexible_freeze.py`, version 0.6).

The script is embedded shallowly: wall-clock time is an integer clock
sampled from a stream `clock : Nat → Int` (one index consumed per
`time.time()` call that matters for control flow), the database world is a
list of `DBWorld` values describing, per database, whether the connection
succeeds, which table names the candidate query returns, and what each
VACUUM attempt does.  Observable behaviour (messages, SET statements,
dispatched VACUUMs, the final summary, the process exit status) is
recorded as a list of events plus a `RunResult` record.
-/

/-- Observable events of a run, in program order.  Each constructor
corresponds to an output or database action of `flexible_freeze.py`:
`workingOn` (line 237), `dbSkipConnect` (line 246), `notFound` (line 311),
`skipDbExcl` (line 325), `skipGlobalExcl` (line 328), `haltMsg`
(line 336), `setStmtTimeout` (lines 360/362), `setLockTimeout`
(line 365), `dispatch` = the VACUUM itself (line 367), `lockSkipMsg`
(line 385), `failMsg` (line 387), and the two summary lines
(lines 401/404 with the counter line 402/405). -/
inductive Ev where
  | workingOn (db : String)
  | dbSkipConnect (db : String)
  | notFound (db tab : String)
  | skipDbExcl (db tab : String)
  | skipGlobalExcl (tab : String)
  | haltMsg
  | setStmtTimeout (secs : Int)
  | setLockTimeout (ms : Int)
  | dispatch (db tab : String)
  | lockSkipMsg (tab : String)
  | failMsg (tab : String)
  | summaryAll (tabs dbs : Nat)
  | summaryHalted (tabs dbs : Nat)
deriving DecidableEq, Repr

/-- Outcome of executing one VACUUM statement on the server: success, or
an exception carrying the message text that `str(ex)` would produce. -/
inductive OpResult where
  | ok
  | err (msg : String)
deriving DecidableEq, Repr

/-- How a loop level ends: fall through normally (`cont`), break because
the halt time was reached (`timedOut`), or `sys.exit(1)` from the
exception handler (`fatal`). -/
inductive LoopExit where
  | cont
  | timedOut
  | fatal
deriving DecidableEq, Repr

/-- The command-line arguments that influence the scheduling loop
(`args` in the script).  `tableOverride` models `args.table`
(default `False`, so absent is `none`); `lockTimeout` models
`args.lock_timeout` (absent is `none`). -/
structure Args where
  tablesToExclude : List String
  dtm : List (String × List String)
  tableOverride : Option String
  dryRun : Bool
  enforcetime : Bool
  lockTimeout : Option Int
deriving Repr

/-- One target database as the outside world presents it: its name,
whether `dbconnect` succeeds, the list of table names the candidate
query returns (already filtered and ordered server-side), and the
outcome of a VACUUM on each table. -/
structure DBWorld where
  name : String
  connectOk : Bool
  tablist : List String
  opResult : String → OpResult

/-- Python truthiness of an optional integer flag: `None` and `0` are
falsy (the script tests `if args.lock_timeout:`). -/
def pyTruthyOptInt : Option Int → Bool
  | none => false
  | some v => decide (v ≠ 0)

/-- Python `str.rstrip()`: drop trailing whitespace characters
(line 383 of the script). -/
def pyRstrip (s : String) : String :=
  ⟨(s.data.reverse.dropWhile Char.isWhitespace).reverse⟩

/-- The exact error message the handler at line 384 recognises as a
lock-timeout and reports as a table skip. -/
def lockTimeoutMsg : String := "canceling statement due to lock timeout"

/-- Splitting a character list at every `'.'` (accumulator holds the
current field reversed). -/
def splitDotAux : List Char → List Char → List (List Char)
  | [], acc => [acc.reverse]
  | c :: rest, acc =>
    if c = '.' then acc.reverse :: splitDotAux rest []
    else splitDotAux rest (c :: acc)

/-- Python `s.split(".")` as the script uses it at line 164: split on
every dot, keeping empty fields, and `"".split(".") == [""]`. -/
def pySplitDot (s : String) : List String :=
  (splitDotAux s.data []).map (fun l => ⟨l⟩)

/-- Insertion into `database_table_map` (lines 171-174): append the table
to the existing entry for the database, or create a new entry. -/
def dtmInsert (dtm : List (String × List String)) (dat tab : String) :
    List (String × List String) :=
  if dtm.any (fun p => p.1 = dat) then
    dtm.map (fun p => if p.1 = dat then (p.1, p.2 ++ [tab]) else p)
  else dtm ++ [(dat, [tab])]

/-- Processing of the `--exclude-table-in-database` arguments
(lines 161-175): each argument is split on `"."`; anything other than
exactly two parts is a fatal input error, `exit(2)`. -/
def parseETD : List String → List (String × List String) →
    Except Nat (List (String × List String))
  | [], dtm => Except.ok dtm
  | e :: rest, dtm =>
    match pySplitDot e with
    | [dat, tab] => parseETD rest (dtmInsert dtm dat tab)
    | _ => Except.error 2

/-- Full parse of the repeated `--exclude-table-in-database` flag,
starting from the empty map (line 161). -/
def parseExcludeTableInDatabase (l : List String) :
    Except Nat (List (String × List String)) :=
  parseETD l []

/-- Did the exclusion-argument parse succeed (i.e. the script reaches the
database loop instead of calling `exit(2)`)? -/
def parseETDOk (l : List String) : Bool :=
  match parseExcludeTableInDatabase l with
  | Except.ok _ => true
  | Except.error _ => false

/-- The database-scoped exclusion test of line 324:
`db in database_table_map and table in database_table_map[db]`. -/
def dtmExcludes (dtm : List (String × List String)) (db t : String) : Bool :=
  match dtm.find? (fun p => p.1 = db) with
  | none => false
  | some p => p.2.contains t

/-- The single-table override of lines 309-314: with no override (or the
falsy empty string) the query result list is used as is; otherwise the
override must occur in the query result list, in which case the candidate
sequence becomes exactly that one table, else the database is skipped
(`none`, with the "not found or excluded" message). -/
def effTablist (tablist : List String) : Option String → Option (List String)
  | none => some tablist
  | some t =>
    if t = "" then some tablist
    else if tablist.contains t then some [t] else none

/-- The per-table try/except block (lines 357-392) for one operation
attempt: in dry-run mode nothing touches the connection; otherwise the
statement timeout is set (to remaining seconds + 30 under
`--enforce-time`, else to 0), then the lock timeout if configured, then
the VACUUM runs.  Returns the events plus a flag that is `true` when the
handler runs `sys.exit(1)` — which it does on EVERY exception, including
the lock-timeout one (line 392 sits outside the if/else of
lines 384-388). -/
def attemptOp (args : Args) (haltTime now : Int) (dn t : String)
    (res : OpResult) : List Ev × Bool :=
  if args.dryRun then ([], false)
  else
    let pre := Ev.setStmtTimeout
        (if args.enforcetime then (haltTime - now) + 30 else 0) ::
      (if pyTruthyOptInt args.lockTimeout then
        [Ev.setLockTimeout (args.lockTimeout.getD 0)] else []) ++
      [Ev.dispatch dn t]
    match res with
    | OpResult.ok => (pre, false)
    | OpResult.err m =>
      (pre ++ [if pyRstrip m = lockTimeoutMsg then Ev.lockSkipMsg t
               else Ev.failMsg t], true)

/-- Result of the inner table loop (lines 316-394) for one database:
events, how the loop ended, how many times `tabcount` was incremented,
and the next unread clock index. -/
structure TLOut where
  events : List Ev
  exit : LoopExit
  tabs : Nat
  ci : Nat
deriving DecidableEq, Repr

/-- The table loop of lines 316-394.  Per table: database-scoped
exclusion check, then global exclusion check, then the halt-time check
(`time.time() >= halt_time`, consuming one clock sample), then
`tabcount += 1`, the timeout computation (a second clock sample under
`--enforce-time`), and the operation attempt.  A fatal attempt is
`sys.exit(1)`; the halt check breaks with `time_exit = True`. -/
def tableLoop (args : Args) (haltTime : Int) (clock : Nat → Int)
    (dbw : DBWorld) : List String → Nat → TLOut
  | [], ci => ⟨[], LoopExit.cont, 0, ci⟩
  | t :: rest, ci =>
    if dtmExcludes args.dtm dbw.name t then
      let r := tableLoop args haltTime clock dbw rest ci
      ⟨Ev.skipDbExcl dbw.name t :: r.events, r.exit, r.tabs, r.ci⟩
    else if args.tablesToExclude.contains t then
      let r := tableLoop args haltTime clock dbw rest ci
      ⟨Ev.skipGlobalExcl t :: r.events, r.exit, r.tabs, r.ci⟩
    else if haltTime ≤ clock ci then
      ⟨[Ev.haltMsg], LoopExit.timedOut, 0, ci + 1⟩
    else
      let ci2 := if args.enforcetime then ci + 2 else ci + 1
      let a := attemptOp args haltTime (clock (ci + 1)) dbw.name t
        (dbw.opResult t)
      if a.2 then ⟨a.1, LoopExit.fatal, 1, ci2⟩
      else
        let r := tableLoop args haltTime clock dbw rest ci2
        ⟨a.1 ++ r.events, r.exit, 1 + r.tabs, r.ci⟩

/-- Result of the per-database body (lines 242-394): events, loop exit,
`tabcount` increments, next clock index, and whether `conn` refers to an
open connection afterwards (it is reset to `None` at line 242 and only
reassigned if `dbconnect` succeeds). -/
structure DBOut where
  events : List Ev
  exit : LoopExit
  tabs : Nat
  ci : Nat
  connOpen : Bool
deriving DecidableEq, Repr

/-- The body of the database loop for one database (lines 242-394):
connect (failure skips the database with a message and leaves `conn`
as `None`), fetch the candidate list, apply the single-table override,
then run the table loop. -/
def processDB (args : Args) (haltTime : Int) (clock : Nat → Int)
    (dbw : DBWorld) (ci : Nat) : DBOut :=
  if dbw.connectOk = false then
    ⟨[Ev.dbSkipConnect dbw.name], LoopExit.cont, 0, ci, false⟩
  else
    match effTablist dbw.tablist args.tableOverride with
    | none =>
      ⟨[Ev.notFound dbw.name (args.tableOverride.getD "")],
        LoopExit.cont, 0, ci, true⟩
    | some ts =>
      let r := tableLoop args haltTime clock dbw ts ci
      ⟨r.events, r.exit, r.tabs, r.ci, true⟩

/-- Final observable outcome of a run: all events, the process exit
status, whether the process died from an uncaught exception (the
`conn.close()` on `None` at line 396), the final counters, and the final
value of `time_exit`. -/
structure RunResult where
  events : List Ev
  exitCode : Nat
  crashed : Bool
  tabcount : Nat
  dbcount : Nat
  time_exit : Bool
deriving DecidableEq, Repr

/-- Lines 396-408: after the database loop, `conn.close()` runs
unconditionally.  If `conn` is `None` this raises `AttributeError`
(uncaught: the process dies with status 1 and never prints the summary);
otherwise the summary line for the `time_exit` value is printed and the
script ends with `sys.exit(0)`. -/
def finishRun (te co : Bool) (tab dbc : Nat) : RunResult :=
  if co then
    ⟨[if te then Ev.summaryHalted tab dbc else Ev.summaryAll tab dbc],
      0, false, tab, dbc, te⟩
  else ⟨[], 1, true, tab, dbc, te⟩

/-- Prefix a run result's event list with earlier events. -/
def prependEvents (es : List Ev) (r : RunResult) : RunResult :=
  { r with events := es ++ r.events }

/-- The database loop of lines 236-394 plus the epilogue of
lines 396-408.  Note the order inside one iteration: the
"working on database" message, then the `time_exit` break, and only then
`dbcount += 1` and the connection attempt — so the database whose table
loop tripped the halt IS counted, as is every database whose connection
fails. -/
def dbLoop (args : Args) (haltTime : Int) (clock : Nat → Int) :
    List DBWorld → Bool → Nat → Nat → Nat → Bool → RunResult
  | [], te, tab, dbc, _, co => finishRun te co tab dbc
  | dbw :: rest, te, tab, dbc, ci, co =>
    if te then prependEvents [Ev.workingOn dbw.name] (finishRun true co tab dbc)
    else
      let out := processDB args haltTime clock dbw ci
      match out.exit with
      | LoopExit.fatal =>
        ⟨Ev.workingOn dbw.name :: out.events, 1, false,
          tab + out.tabs, dbc + 1, false⟩
      | LoopExit.timedOut =>
        prependEvents (Ev.workingOn dbw.name :: out.events)
          (dbLoop args haltTime clock rest true (tab + out.tabs) (dbc + 1)
            out.ci out.connOpen)
      | LoopExit.cont =>
        prependEvents (Ev.workingOn dbw.name :: out.events)
          (dbLoop args haltTime clock rest false (tab + out.tabs) (dbc + 1)
            out.ci out.connOpen)

/-- A whole run of the script over a database list, starting with
`time_exit = False`, zero counters and `conn = None` (lines 183,
231-234). -/
def flexibleFreezeRun (args : Args) (haltTime : Int) (clock : Nat → Int)
    (dbs : List DBWorld) : RunResult :=
  dbLoop args haltTime clock dbs false 0 0 0 false

/-- Server-side statistics of one table, the inputs to the freeze-mode
candidate query of lines 279-298. -/
structure TableStat where
  name : String
  freeze_age : Int
  table_bytes : Int
deriving DecidableEq, Repr

/-- Ordering of the freeze-mode query: `ORDER BY freeze_age DESC,
table_bytes DESC` — `a` sorts no later than `b`. -/
def freezeBefore (a b : TableStat) : Bool :=
  decide (b.freeze_age < a.freeze_age ∨
    (a.freeze_age = b.freeze_age ∧ b.table_bytes ≤ a.table_bytes))

/-- Insertion step of an insertion sort under `freezeBefore`. -/
def insertByFreeze (a : TableStat) : List TableStat → List TableStat
  | [] => [a]
  | b :: rest =>
    if freezeBefore a b then a :: b :: rest else b :: insertByFreeze a rest

/-- Insertion sort under `freezeBefore`. -/
def sortByFreeze : List TableStat → List TableStat
  | [] => []
  | a :: rest => insertByFreeze a (sortByFreeze rest)

/-- The freeze-mode candidate query of lines 279-298:
`WHERE freeze_age > freezeage AND table_bytes >= minsizemb * 2 ^ 20
ORDER BY freeze_age DESC, table_bytes DESC LIMIT 1000`, projected to the
table names. -/
def freezeQuery (freezeage minsizemb : Int) (stats : List TableStat) :
    List String :=
  ((sortByFreeze (stats.filter (fun s =>
      decide (freezeage < s.freeze_age ∧
        minsizemb * 1048576 ≤ s.table_bytes)))).take 1000).map
    (fun s => s.name)

/-! ### Concrete instances used by individual claims -/

/-- Arguments with `--lock-timeout 5000` and nothing else special. -/
def c1args : Args := ⟨[], [], none, false, false, some 5000⟩

/-- A database whose first candidate table fails with exactly the
lock-timeout error and whose second candidate would succeed. -/
def c1db : DBWorld :=
  ⟨"d", true, ["ta", "tb"],
    fun t => if t = "ta" then OpResult.err lockTimeoutMsg else OpResult.ok⟩

/-- Run over `c1db` with plenty of time budget. -/
def c1run : RunResult := flexibleFreezeRun c1args 1000 (fun _ => 0) [c1db]

/-- Plain arguments: no exclusions, no override, no lock timeout. -/
def plainArgs : Args := ⟨[], [], none, false, false, none⟩

/-- A run whose deadline is already past at the first halt check. -/
def c3run : RunResult :=
  flexibleFreezeRun plainArgs 0 (fun _ => 5)
    [⟨"d", true, ["t"], fun _ => OpResult.ok⟩]

/-- Table statistics of the end-to-end scenario: `t1` with age 20e6 and
`t2` with age 5e6. -/
def c5stats : List TableStat := [⟨"t1", 20000000, 1000⟩, ⟨"t2", 5000000, 1000⟩]

/-- The end-to-end scenario run: `d1` yields (through the freeze query at
threshold 10e6) the single candidate `t1`, which succeeds; the connection
to `d2` fails. -/
def c5run : RunResult :=
  flexibleFreezeRun plainArgs 1000 (fun _ => 0)
    [⟨"d1", true, freezeQuery 10000000 0 c5stats, fun _ => OpResult.ok⟩,
     ⟨"d2", false, [], fun _ => OpResult.ok⟩]

/-- A run in which everything succeeds except that the last database in
the target list fails to connect. -/
def c9run : RunResult :=
  flexibleFreezeRun plainArgs 1000 (fun _ => 0)
    [⟨"dbA", true, ["x"], fun _ => OpResult.ok⟩,
     ⟨"dbB", false, [], fun _ => OpResult.ok⟩]

/-- A database whose first candidate fails with an error that is NOT the
lock-timeout message. -/
def w2db : DBWorld :=
  ⟨"wd", true, ["wa", "wb"],
    fun t => if t = "wa" then OpResult.err "relation does not exist"
             else OpResult.ok⟩

/-- Run over `w2db`: used to witness the run-fatal behaviour. -/
def w2run : RunResult := flexibleFreezeRun plainArgs 1000 (fun _ => 0) [w2db]

/-- Arguments excluding table `t` globally. -/
def w4args : Args := ⟨["t"], [], none, false, false, none⟩

/-- Arguments excluding table `t` only inside database `d1`. -/
def c4args : Args := ⟨[], [("d1", ["t"])], none, false, false, none⟩

/-- Run of `c4args` over database `d2`, which offers the same table name
`t` that is excluded only for `d1`. -/
def c4crossRun : RunResult :=
  flexibleFreezeRun c4args 1000 (fun _ => 0)
    [⟨"d2", true, ["t"], fun _ => OpResult.ok⟩]

/-- Arguments excluding table `x` inside database `e`. -/
def c4haltArgs : Args := ⟨[], [("e", ["x"])], none, false, false, none⟩

/-- Run of `c4haltArgs` over database `e` whose only candidate is the
excluded `x`, with the deadline already in the past: the exclusion skip
happens before the halt check, so `time_exit` is never set. -/
def c4haltRun : RunResult :=
  flexibleFreezeRun c4haltArgs 0 (fun _ => 100)
    [⟨"e", true, ["x"], fun _ => OpResult.ok⟩]

/-- Arguments with the single-table override `-st t3`. -/
def c6args : Args := ⟨[], [], some "t3", false, false, none⟩

/-- A database whose candidate list does not contain `t3`. -/
def c6db : DBWorld := ⟨"db", true, ["ta"], fun _ => OpResult.ok⟩

/-- Arguments with `--enforce-time` and `--lock-timeout 3000`. -/
def c8args : Args := ⟨[], [], none, false, true, some 3000⟩

/-- A database world used for the statement-timeout witness. -/
def c8db : DBWorld := ⟨"d", true, ["t"], fun _ => OpResult.ok⟩

/-- No `dispatch` event ever follows a `haltMsg` event in the list: every
occurrence of `haltMsg` has a dispatch-free tail. -/
def noDispAfterHalt : List Ev → Prop
  | [] => True
  | e :: rest =>
    (e = Ev.haltMsg → ∀ d u, Ev.dispatch d u ∉ rest) ∧ noDispAfterHalt rest

/-! ### Helper lemmas -/

/-- Every `dispatch` event of one operation attempt names the current
database and table. -/
lemma attempt_dispatch_mem {args : Args} {ht now : Int} {dn t d u : String}
    {res : OpResult}
    (h : Ev.dispatch d u ∈ (attemptOp args ht now dn t res).1) :
    d = dn ∧ u = t := by
  by_cases hd : args.dryRun
  · simp [attemptOp, hd] at h
  · cases res with
    | ok =>
      by_cases hl : pyTruthyOptInt args.lockTimeout <;>
        simp [attemptOp, hd, hl] at h <;> exact h
    | err m =>
      by_cases hl : pyTruthyOptInt args.lockTimeout <;>
        by_cases hm : pyRstrip m = lockTimeoutMsg <;>
          simp [attemptOp, hd, hl, hm] at h <;> exact h

/-- A `failMsg` among the attempt's events forces the fatal flag, and the
`failMsg` is the attempt's last event. -/
lemma attempt_failMsg {args : Args} {ht now : Int} {dn t u : String}
    {res : OpResult}
    (h : Ev.failMsg u ∈ (attemptOp args ht now dn t res).1) :
    (attemptOp args ht now dn t res).2 = true ∧
      ∃ p, (attemptOp args ht now dn t res).1 = p ++ [Ev.failMsg u] := by
  by_cases hd : args.dryRun
  · simp [attemptOp, hd] at h
  · cases res with
    | ok =>
      by_cases hl : pyTruthyOptInt args.lockTimeout <;>
        simp [attemptOp, hd, hl] at h
    | err m =>
      by_cases hm : pyRstrip m = lockTimeoutMsg
      · by_cases hl : pyTruthyOptInt args.lockTimeout <;>
          simp [attemptOp, hd, hl, hm] at h
      · have hu : u = t := by
          by_cases hl : pyTruthyOptInt args.lockTimeout <;>
            simp [attemptOp, hd, hl, hm] at h <;> exact h
        subst hu
        constructor
        · simp [attemptOp, hd, hm]
        · refine ⟨Ev.setStmtTimeout
              (if args.enforcetime then (ht - now) + 30 else 0) ::
              (if pyTruthyOptInt args.lockTimeout then
                [Ev.setLockTimeout (args.lockTimeout.getD 0)] else []) ++
              [Ev.dispatch dn u], ?_⟩
          by_cases hl : pyTruthyOptInt args.lockTimeout <;>
            simp [attemptOp, hd, hl, hm]

/-- An operation attempt never emits the halt message. -/
lemma attempt_no_halt {args : Args} {ht now : Int} {dn t : String}
    {res : OpResult} : Ev.haltMsg ∉ (attemptOp args ht now dn t res).1 := by
  by_cases hd : args.dryRun
  · simp [attemptOp, hd]
  · cases res with
    | ok =>
      by_cases hl : pyTruthyOptInt args.lockTimeout <;> simp [attemptOp, hd, hl]
    | err m =>
      by_cases hl : pyTruthyOptInt args.lockTimeout <;>
        by_cases hm : pyRstrip m = lockTimeoutMsg <;>
          simp [attemptOp, hd, hl, hm]


/-- Unfolding: the table loop on the empty candidate list. -/
lemma tl_nil (args : Args) (ht : Int) (clock : Nat → Int) (dbw : DBWorld)
    (ci : Nat) : tableLoop args ht clock dbw [] ci = ⟨[], LoopExit.cont, 0, ci⟩ := by
  simp [tableLoop]

/-- Unfolding: head table skipped by the database-scoped exclusion. -/
lemma tl_cons_dbexcl (args : Args) (ht : Int) (clock : Nat → Int)
    (dbw : DBWorld) (t : String) (rest : List String) (ci : Nat)
    (h1 : dtmExcludes args.dtm dbw.name t = true) :
    tableLoop args ht clock dbw (t :: rest) ci =
      ⟨Ev.skipDbExcl dbw.name t :: (tableLoop args ht clock dbw rest ci).events,
        (tableLoop args ht clock dbw rest ci).exit,
        (tableLoop args ht clock dbw rest ci).tabs,
        (tableLoop args ht clock dbw rest ci).ci⟩ := by
  simp [tableLoop, h1]

/-- Unfolding: head table skipped by the global exclusion. -/
lemma tl_cons_globexcl (args : Args) (ht : Int) (clock : Nat → Int)
    (dbw : DBWorld) (t : String) (rest : List String) (ci : Nat)
    (h1 : dtmExcludes args.dtm dbw.name t = false)
    (h2 : t ∈ args.tablesToExclude) :
    tableLoop args ht clock dbw (t :: rest) ci =
      ⟨Ev.skipGlobalExcl t :: (tableLoop args ht clock dbw rest ci).events,
        (tableLoop args ht clock dbw rest ci).exit,
        (tableLoop args ht clock dbw rest ci).tabs,
        (tableLoop args ht clock dbw rest ci).ci⟩ := by
  simp [tableLoop, h1, h2]

/-- Unfolding: head table trips the halt check of line 335. -/
lemma tl_cons_halt (args : Args) (ht : Int) (clock : Nat → Int)
    (dbw : DBWorld) (t : String) (rest : List String) (ci : Nat)
    (h1 : dtmExcludes args.dtm dbw.name t = false)
    (h2 : t ∉ args.tablesToExclude) (h3 : ht ≤ clock ci) :
    tableLoop args ht clock dbw (t :: rest) ci =
      ⟨[Ev.haltMsg], LoopExit.timedOut, 0, ci + 1⟩ := by
  simp [tableLoop, h1, h2, h3]

/-- Unfolding: head table is attempted and the attempt is fatal. -/
lemma tl_cons_fatal (args : Args) (ht : Int) (clock : Nat → Int)
    (dbw : DBWorld) (t : String) (rest : List String) (ci : Nat)
    (h1 : dtmExcludes args.dtm dbw.name t = false)
    (h2 : t ∉ args.tablesToExclude) (h3 : ¬ht ≤ clock ci)
    (h4 : (attemptOp args ht (clock (ci + 1)) dbw.name t
      (dbw.opResult t)).2 = true) :
    tableLoop args ht clock dbw (t :: rest) ci =
      ⟨(attemptOp args ht (clock (ci + 1)) dbw.name t (dbw.opResult t)).1,
        LoopExit.fatal, 1, if args.enforcetime then ci + 2 else ci + 1⟩ := by
  simp [tableLoop, h1, h2, h3, h4]

/-- Unfolding: head table is attempted, succeeds, loop continues. -/
lemma tl_cons_step (args : Args) (ht : Int) (clock : Nat → Int)
    (dbw : DBWorld) (t : String) (rest : List String) (ci : Nat)
    (h1 : dtmExcludes args.dtm dbw.name t = false)
    (h2 : t ∉ args.tablesToExclude) (h3 : ¬ht ≤ clock ci)
    (h4 : (attemptOp args ht (clock (ci + 1)) dbw.name t
      (dbw.opResult t)).2 = false) :
    tableLoop args ht clock dbw (t :: rest) ci =
      ⟨(attemptOp args ht (clock (ci + 1)) dbw.name t (dbw.opResult t)).1 ++
          (tableLoop args ht clock dbw rest
            (if args.enforcetime then ci + 2 else ci + 1)).events,
        (tableLoop args ht clock dbw rest
          (if args.enforcetime then ci + 2 else ci + 1)).exit,
        1 + (tableLoop args ht clock dbw rest
          (if args.enforcetime then ci + 2 else ci + 1)).tabs,
        (tableLoop args ht clock dbw rest
          (if args.enforcetime then ci + 2 else ci + 1)).ci⟩ := by
  simp [tableLoop, h1, h2, h3, h4]

/-- Every table dispatched by the table loop names the current database
and passed both exclusion checks of lines 324-330. -/
lemma tl_dispatch_mem (args : Args) (ht : Int) (clock : Nat → Int)
    (dbw : DBWorld) (ts : List String) :
    ∀ ci d u, Ev.dispatch d u ∈ (tableLoop args ht clock dbw ts ci).events →
      d = dbw.name ∧ dtmExcludes args.dtm dbw.name u = false ∧
        u ∉ args.tablesToExclude := by
  induction ts with
  | nil => intro ci d u h; rw [tl_nil] at h; simp at h
  | cons t rest ih =>
    intro ci d u h
    by_cases h1 : dtmExcludes args.dtm dbw.name t = true
    · rw [tl_cons_dbexcl args ht clock dbw t rest ci h1] at h
      simp only [List.mem_cons, reduceCtorEq, false_or] at h
      exact ih ci d u h
    · rw [Bool.not_eq_true] at h1
      by_cases h2 : t ∈ args.tablesToExclude
      · rw [tl_cons_globexcl args ht clock dbw t rest ci h1 h2] at h
        simp only [List.mem_cons, reduceCtorEq, false_or] at h
        exact ih ci d u h
      · by_cases h3 : ht ≤ clock ci
        · rw [tl_cons_halt args ht clock dbw t rest ci h1 h2 h3] at h
          simp at h
        · by_cases h4 : (attemptOp args ht (clock (ci + 1)) dbw.name t
            (dbw.opResult t)).2 = true
          · rw [tl_cons_fatal args ht clock dbw t rest ci h1 h2 h3 h4] at h
            obtain ⟨hd, hu⟩ := attempt_dispatch_mem h
            subst hu
            exact ⟨hd, h1, h2⟩
          · rw [Bool.not_eq_true] at h4
            rw [tl_cons_step args ht clock dbw t rest ci h1 h2 h3 h4] at h
            simp only [List.mem_append] at h
            rcases h with h | h
            · obtain ⟨hd, hu⟩ := attempt_dispatch_mem h
              subst hu
              exact ⟨hd, h1, h2⟩
            · exact ih _ d u h

/-- A `failMsg` in the table loop's events means the loop ended with
`sys.exit(1)` and the `failMsg` is the very last event. -/
lemma tl_failMsg (args : Args) (ht : Int) (clock : Nat → Int)
    (dbw : DBWorld) (ts : List String) :
    ∀ ci u, Ev.failMsg u ∈ (tableLoop args ht clock dbw ts ci).events →
      (tableLoop args ht clock dbw ts ci).exit = LoopExit.fatal ∧
        ∃ p, (tableLoop args ht clock dbw ts ci).events =
          p ++ [Ev.failMsg u] := by
  induction ts with
  | nil => intro ci u h; rw [tl_nil] at h; simp at h
  | cons t rest ih =>
    intro ci u h
    by_cases h1 : dtmExcludes args.dtm dbw.name t = true
    · rw [tl_cons_dbexcl args ht clock dbw t rest ci h1] at h ⊢
      simp only [List.mem_cons, reduceCtorEq, false_or] at h
      obtain ⟨he, p, hp⟩ := ih ci u h
      exact ⟨he, Ev.skipDbExcl dbw.name t :: p, by simp [hp]⟩
    · rw [Bool.not_eq_true] at h1
      by_cases h2 : t ∈ args.tablesToExclude
      · rw [tl_cons_globexcl args ht clock dbw t rest ci h1 h2] at h ⊢
        simp only [List.mem_cons, reduceCtorEq, false_or] at h
        obtain ⟨he, p, hp⟩ := ih ci u h
        exact ⟨he, Ev.skipGlobalExcl t :: p, by simp [hp]⟩
      · by_cases h3 : ht ≤ clock ci
        · rw [tl_cons_halt args ht clock dbw t rest ci h1 h2 h3] at h
          simp at h
        · by_cases h4 : (attemptOp args ht (clock (ci + 1)) dbw.name t
            (dbw.opResult t)).2 = true
          · rw [tl_cons_fatal args ht clock dbw t rest ci h1 h2 h3 h4] at h ⊢
            obtain ⟨-, p, hp⟩ := attempt_failMsg h
            exact ⟨rfl, p, hp⟩
          · rw [Bool.not_eq_true] at h4
            rw [tl_cons_step args ht clock dbw t rest ci h1 h2 h3 h4] at h ⊢
            simp only [List.mem_append] at h
            rcases h with h | h
            · exact absurd (attempt_failMsg h).1 (by simp [h4])
            · obtain ⟨he, p, hp⟩ := ih _ u h
              exact ⟨he, (attemptOp args ht (clock (ci + 1)) dbw.name t
                (dbw.opResult t)).1 ++ p, by simp [hp]⟩

/-- The halt message appears in the table loop's events exactly when the
loop broke on the halt check, and then it is the last event. -/
lemma tl_halt (args : Args) (ht : Int) (clock : Nat → Int)
    (dbw : DBWorld) (ts : List String) :
    ∀ ci,
      (Ev.haltMsg ∈ (tableLoop args ht clock dbw ts ci).events →
        (tableLoop args ht clock dbw ts ci).exit = LoopExit.timedOut) ∧
      ((tableLoop args ht clock dbw ts ci).exit = LoopExit.timedOut →
        ∃ p, (tableLoop args ht clock dbw ts ci).events =
            p ++ [Ev.haltMsg] ∧ Ev.haltMsg ∉ p) := by
  induction ts with
  | nil =>
    intro ci
    rw [tl_nil]
    constructor <;> intro h <;> simp at h
  | cons t rest ih =>
    intro ci
    by_cases h1 : dtmExcludes args.dtm dbw.name t = true
    · rw [tl_cons_dbexcl args ht clock dbw t rest ci h1]
      constructor
      · intro h
        simp only [List.mem_cons, reduceCtorEq, false_or] at h
        exact (ih ci).1 h
      · intro h
        obtain ⟨p, hp, hn⟩ := (ih ci).2 h
        exact ⟨Ev.skipDbExcl dbw.name t :: p, by simp [hp], by simp [hn]⟩
    · rw [Bool.not_eq_true] at h1
      by_cases h2 : t ∈ args.tablesToExclude
      · rw [tl_cons_globexcl args ht clock dbw t rest ci h1 h2]
        constructor
        · intro h
          simp only [List.mem_cons, reduceCtorEq, false_or] at h
          exact (ih ci).1 h
        · intro h
          obtain ⟨p, hp, hn⟩ := (ih ci).2 h
          exact ⟨Ev.skipGlobalExcl t :: p, by simp [hp], by simp [hn]⟩
      · by_cases h3 : ht ≤ clock ci
        · rw [tl_cons_halt args ht clock dbw t rest ci h1 h2 h3]
          exact ⟨fun _ => rfl, fun _ => ⟨[], by simp, by simp⟩⟩
        · by_cases h4 : (attemptOp args ht (clock (ci + 1)) dbw.name t
            (dbw.opResult t)).2 = true
          · rw [tl_cons_fatal args ht clock dbw t rest ci h1 h2 h3 h4]
            constructor
            · intro h; exact absurd h attempt_no_halt
            · intro h; exact absurd h (by simp)
          · rw [Bool.not_eq_true] at h4
            rw [tl_cons_step args ht clock dbw t rest ci h1 h2 h3 h4]
            constructor
            · intro h
              simp only [List.mem_append] at h
              rcases h with h | h
              · exact absurd h attempt_no_halt
              · exact (ih _).1 h
            · intro h
              obtain ⟨p, hp, hn⟩ := (ih _).2 h
              refine ⟨(attemptOp args ht (clock (ci + 1)) dbw.name t
                (dbw.opResult t)).1 ++ p, by simp [hp], ?_⟩
              simp only [List.mem_append, not_or]
              exact ⟨attempt_no_halt, hn⟩

/-- Unfolding: the database body when the connection fails (line 245). -/
lemma pdb_connfail (args : Args) (ht : Int) (clock : Nat → Int)
    (dbw : DBWorld) (ci : Nat) (h : dbw.connectOk = false) :
    processDB args ht clock dbw ci =
      ⟨[Ev.dbSkipConnect dbw.name], LoopExit.cont, 0, ci, false⟩ := by
  simp [processDB, h]

/-- Unfolding: the database body when the single-table override is not in
the candidate list (lines 310-312). -/
lemma pdb_notfound (args : Args) (ht : Int) (clock : Nat → Int)
    (dbw : DBWorld) (ci : Nat) (h : dbw.connectOk = true)
    (h2 : effTablist dbw.tablist args.tableOverride = none) :
    processDB args ht clock dbw ci =
      ⟨[Ev.notFound dbw.name (args.tableOverride.getD "")],
        LoopExit.cont, 0, ci, true⟩ := by
  simp [processDB, h, h2]

/-- Unfolding: the database body when a candidate list is iterated. -/
lemma pdb_run (args : Args) (ht : Int) (clock : Nat → Int)
    (dbw : DBWorld) (ci : Nat) (ts : List String) (h : dbw.connectOk = true)
    (h2 : effTablist dbw.tablist args.tableOverride = some ts) :
    processDB args ht clock dbw ci =
      ⟨(tableLoop args ht clock dbw ts ci).events,
        (tableLoop args ht clock dbw ts ci).exit,
        (tableLoop args ht clock dbw ts ci).tabs,
        (tableLoop args ht clock dbw ts ci).ci, true⟩ := by
  simp [processDB, h, h2]

/-- Every dispatch of the database body names its database and passed the
exclusion checks. -/
lemma pdb_dispatch_mem (args : Args) (ht : Int) (clock : Nat → Int)
    (dbw : DBWorld) (ci : Nat) (d u : String)
    (h : Ev.dispatch d u ∈ (processDB args ht clock dbw ci).events) :
    d = dbw.name ∧ dtmExcludes args.dtm dbw.name u = false ∧
      u ∉ args.tablesToExclude := by
  by_cases hc : dbw.connectOk = true
  · cases h2 : effTablist dbw.tablist args.tableOverride with
    | none => rw [pdb_notfound args ht clock dbw ci hc h2] at h; simp at h
    | some ts =>
      rw [pdb_run args ht clock dbw ci ts hc h2] at h
      exact tl_dispatch_mem args ht clock dbw ts ci d u h
  · rw [Bool.not_eq_true] at hc
    rw [pdb_connfail args ht clock dbw ci hc] at h
    simp at h

/-- A `failMsg` in the database body's events means the body ended fatal,
with the `failMsg` last. -/
lemma pdb_failMsg (args : Args) (ht : Int) (clock : Nat → Int)
    (dbw : DBWorld) (ci : Nat) (u : String)
    (h : Ev.failMsg u ∈ (processDB args ht clock dbw ci).events) :
    (processDB args ht clock dbw ci).exit = LoopExit.fatal ∧
      ∃ p, (processDB args ht clock dbw ci).events = p ++ [Ev.failMsg u] := by
  by_cases hc : dbw.connectOk = true
  · cases h2 : effTablist dbw.tablist args.tableOverride with
    | none => rw [pdb_notfound args ht clock dbw ci hc h2] at h; simp at h
    | some ts =>
      rw [pdb_run args ht clock dbw ci ts hc h2] at h ⊢
      exact tl_failMsg args ht clock dbw ts ci u h
  · rw [Bool.not_eq_true] at hc
    rw [pdb_connfail args ht clock dbw ci hc] at h
    simp at h

/-- The halt message in the database body's events forces a timed-out
body, and conversely a timed-out body ends in the halt message; a
timed-out body also leaves the connection open (the halt check sits
inside the table loop, after a successful connect). -/
lemma pdb_halt (args : Args) (ht : Int) (clock : Nat → Int)
    (dbw : DBWorld) (ci : Nat) :
    (Ev.haltMsg ∈ (processDB args ht clock dbw ci).events →
      (processDB args ht clock dbw ci).exit = LoopExit.timedOut) ∧
    ((processDB args ht clock dbw ci).exit = LoopExit.timedOut →
      (∃ p, (processDB args ht clock dbw ci).events = p ++ [Ev.haltMsg] ∧
        Ev.haltMsg ∉ p) ∧
      (processDB args ht clock dbw ci).connOpen = true) := by
  by_cases hc : dbw.connectOk = true
  · cases h2 : effTablist dbw.tablist args.tableOverride with
    | none =>
      rw [pdb_notfound args ht clock dbw ci hc h2]
      constructor
      · intro h; simp at h
      · intro h; simp at h
    | some ts =>
      rw [pdb_run args ht clock dbw ci ts hc h2]
      refine ⟨(tl_halt args ht clock dbw ts ci).1, fun h => ?_⟩
      exact ⟨(tl_halt args ht clock dbw ts ci).2 h, rfl⟩
  · rw [Bool.not_eq_true] at hc
    rw [pdb_connfail args ht clock dbw ci hc]
    constructor
    · intro h; simp at h
    · intro h; simp at h

/-- The final `conn.close()` / summary step never emits a dispatch, a
`failMsg` or the halt message. -/
lemma finish_no_key (te co : Bool) (tab dbc : Nat) (d u : String) :
    Ev.dispatch d u ∉ (finishRun te co tab dbc).events ∧
      Ev.failMsg u ∉ (finishRun te co tab dbc).events ∧
      Ev.haltMsg ∉ (finishRun te co tab dbc).events := by
  cases te <;> cases co <;> simp [finishRun]

/-- Unfolding: the database loop on an empty list. -/
lemma dbl_nil (args : Args) (ht : Int) (clock : Nat → Int) (te : Bool)
    (tab dbc ci : Nat) (co : Bool) :
    dbLoop args ht clock [] te tab dbc ci co = finishRun te co tab dbc := by
  simp [dbLoop]

/-- Unfolding: the database loop breaks at line 238 once `time_exit`. -/
lemma dbl_break (args : Args) (ht : Int) (clock : Nat → Int)
    (dbw : DBWorld) (rest : List DBWorld) (tab dbc ci : Nat) (co : Bool) :
    dbLoop args ht clock (dbw :: rest) true tab dbc ci co =
      prependEvents [Ev.workingOn dbw.name] (finishRun true co tab dbc) := by
  simp [dbLoop]

/-- Unfolding: the database loop on a fatal database body. -/
lemma dbl_fatal (args : Args) (ht : Int) (clock : Nat → Int)
    (dbw : DBWorld) (rest : List DBWorld) (tab dbc ci : Nat) (co : Bool)
    (h : (processDB args ht clock dbw ci).exit = LoopExit.fatal) :
    dbLoop args ht clock (dbw :: rest) false tab dbc ci co =
      ⟨Ev.workingOn dbw.name :: (processDB args ht clock dbw ci).events,
        1, false, tab + (processDB args ht clock dbw ci).tabs, dbc + 1,
        false⟩ := by
  simp [dbLoop, h]

/-- Unfolding: the database loop on a timed-out database body. -/
lemma dbl_timedOut (args : Args) (ht : Int) (clock : Nat → Int)
    (dbw : DBWorld) (rest : List DBWorld) (tab dbc ci : Nat) (co : Bool)
    (h : (processDB args ht clock dbw ci).exit = LoopExit.timedOut) :
    dbLoop args ht clock (dbw :: rest) false tab dbc ci co =
      prependEvents (Ev.workingOn dbw.name ::
          (processDB args ht clock dbw ci).events)
        (dbLoop args ht clock rest true
          (tab + (processDB args ht clock dbw ci).tabs) (dbc + 1)
          (processDB args ht clock dbw ci).ci
          (processDB args ht clock dbw ci).connOpen) := by
  simp [dbLoop, h]

/-- Unfolding: the database loop on a normally completed database body. -/
lemma dbl_cont (args : Args) (ht : Int) (clock : Nat → Int)
    (dbw : DBWorld) (rest : List DBWorld) (tab dbc ci : Nat) (co : Bool)
    (h : (processDB args ht clock dbw ci).exit = LoopExit.cont) :
    dbLoop args ht clock (dbw :: rest) false tab dbc ci co =
      prependEvents (Ev.workingOn dbw.name ::
          (processDB args ht clock dbw ci).events)
        (dbLoop args ht clock rest false
          (tab + (processDB args ht clock dbw ci).tabs) (dbc + 1)
          (processDB args ht clock dbw ci).ci
          (processDB args ht clock dbw ci).connOpen) := by
  simp [dbLoop, h]

/-- A dispatch-free list trivially satisfies `noDispAfterHalt`. -/
lemma ndah_of_no_disp : ∀ l : List Ev, (∀ d u, Ev.dispatch d u ∉ l) →
    noDispAfterHalt l
  | [], _ => trivial
  | e :: rest, h =>
    ⟨fun _ d u hm => h d u (List.mem_cons_of_mem e hm),
      ndah_of_no_disp rest fun d u hm => h d u (List.mem_cons_of_mem e hm)⟩

/-- A halt-free list trivially satisfies `noDispAfterHalt`. -/
lemma ndah_of_no_halt : ∀ l : List Ev, Ev.haltMsg ∉ l → noDispAfterHalt l
  | [], _ => trivial
  | e :: rest, h =>
    ⟨fun he => absurd (he ▸ List.mem_cons_self e rest) h,
      ndah_of_no_halt rest fun hm => h (List.mem_cons_of_mem e hm)⟩

/-- `noDispAfterHalt` is preserved by prefixing halt-free events. -/
lemma ndah_append : ∀ l1 l2 : List Ev, Ev.haltMsg ∉ l1 →
    noDispAfterHalt l2 → noDispAfterHalt (l1 ++ l2)
  | [], _, _, h2 => h2
  | e :: rest, l2, h1, h2 =>
    ⟨fun he => absurd (he ▸ List.mem_cons_self e rest) h1,
      ndah_append rest l2 (fun hm => h1 (List.mem_cons_of_mem e hm)) h2⟩

/-- Building `noDispAfterHalt` around a single halt with a dispatch-free
tail and a halt-free prefix. -/
lemma ndah_mid : ∀ p s : List Ev, Ev.haltMsg ∉ p →
    (∀ d u, Ev.dispatch d u ∉ s) → noDispAfterHalt (p ++ Ev.haltMsg :: s)
  | [], s, _, hs => ⟨fun _ => hs, ndah_of_no_disp s hs⟩
  | e :: rest, s, hp, hs =>
    ⟨fun he => absurd (he ▸ List.mem_cons_self e rest) hp,
      ndah_mid rest s (fun hm => hp (List.mem_cons_of_mem e hm)) hs⟩

/-- From `noDispAfterHalt`, every decomposition at a `haltMsg` has a
dispatch-free suffix. -/
lemma ndah_extract : ∀ p s : List Ev,
    noDispAfterHalt (p ++ Ev.haltMsg :: s) → ∀ d u, Ev.dispatch d u ∉ s
  | [], _, h => h.1 rfl
  | _ :: rest, s, h => ndah_extract rest s h.2

/-- Facts about the database loop once `time_exit` is already set: it
only prints the per-database banner and the summary, dispatches nothing,
keeps `time_exit` set, and — when a connection is open — exits cleanly
with status 0 and the halted summary. -/
lemma dbl_true_facts (args : Args) (ht : Int) (clock : Nat → Int)
    (rest : List DBWorld) (tab dbc ci : Nat) (co : Bool) :
    (∀ d u, Ev.dispatch d u ∉
      (dbLoop args ht clock rest true tab dbc ci co).events) ∧
    (dbLoop args ht clock rest true tab dbc ci co).time_exit = true ∧
    (co = true →
      (dbLoop args ht clock rest true tab dbc ci co).exitCode = 0 ∧
      (dbLoop args ht clock rest true tab dbc ci co).crashed = false ∧
      Ev.summaryHalted tab dbc ∈
        (dbLoop args ht clock rest true tab dbc ci co).events) ∧
    Ev.haltMsg ∉ (dbLoop args ht clock rest true tab dbc ci co).events ∧
    Ev.failMsg "" ∉ (dbLoop args ht clock rest true tab dbc ci co).events := by
  cases rest <;> cases co <;>
    simp [dbLoop, finishRun, prependEvents]

/-- Every dispatch of a whole database-loop run happened against a
database for which the table passed both exclusion checks. -/
lemma dbl_dispatch_mem (args : Args) (ht : Int) (clock : Nat → Int)
    (dbs : List DBWorld) :
    ∀ te tab dbc ci co d u,
      Ev.dispatch d u ∈ (dbLoop args ht clock dbs te tab dbc ci co).events →
        dtmExcludes args.dtm d u = false ∧ u ∉ args.tablesToExclude := by
  induction dbs with
  | nil =>
    intro te tab dbc ci co d u h
    rw [dbl_nil] at h
    exact absurd h (finish_no_key te co tab dbc d u).1
  | cons dbw rest ih =>
    intro te tab dbc ci co d u h
    cases te
    · cases hex : (processDB args ht clock dbw ci).exit
      · rw [dbl_cont args ht clock dbw rest tab dbc ci co hex] at h
        simp only [prependEvents, List.cons_append, List.mem_cons,
          List.mem_append, reduceCtorEq, false_or] at h
        rcases h with h | h
        · obtain ⟨hd, hrest⟩ := pdb_dispatch_mem args ht clock dbw ci d u h
          exact hd ▸ hrest
        · exact ih false _ _ _ _ d u h
      · rw [dbl_timedOut args ht clock dbw rest tab dbc ci co hex] at h
        simp only [prependEvents, List.cons_append, List.mem_cons,
          List.mem_append, reduceCtorEq, false_or] at h
        rcases h with h | h
        · obtain ⟨hd, hrest⟩ := pdb_dispatch_mem args ht clock dbw ci d u h
          exact hd ▸ hrest
        · exact ih true _ _ _ _ d u h
      · rw [dbl_fatal args ht clock dbw rest tab dbc ci co hex] at h
        simp only [List.mem_cons, reduceCtorEq, false_or] at h
        obtain ⟨hd, hrest⟩ := pdb_dispatch_mem args ht clock dbw ci d u h
        exact hd ▸ hrest
    · rw [dbl_break] at h
      simp only [prependEvents, List.cons_append, List.nil_append,
        List.mem_cons, reduceCtorEq, false_or] at h
      exact absurd h (finish_no_key true co tab dbc d u).1

/-- A `failMsg` anywhere in a database-loop run forces exit status 1 and
is the final event of the run: nothing at all — in particular no further
dispatch — happens after it. -/
lemma dbl_failMsg (args : Args) (ht : Int) (clock : Nat → Int)
    (dbs : List DBWorld) :
    ∀ te tab dbc ci co u,
      Ev.failMsg u ∈ (dbLoop args ht clock dbs te tab dbc ci co).events →
        (dbLoop args ht clock dbs te tab dbc ci co).exitCode = 1 ∧
        ∃ p, (dbLoop args ht clock dbs te tab dbc ci co).events =
          p ++ [Ev.failMsg u] := by
  induction dbs with
  | nil =>
    intro te tab dbc ci co u h
    rw [dbl_nil] at h
    exact absurd h (finish_no_key te co tab dbc "" u).2.1
  | cons dbw rest ih =>
    intro te tab dbc ci co u h
    cases te
    · cases hex : (processDB args ht clock dbw ci).exit
      · rw [dbl_cont args ht clock dbw rest tab dbc ci co hex] at h ⊢
        simp only [prependEvents, List.cons_append, List.mem_cons,
          List.mem_append, reduceCtorEq, false_or] at h
        rcases h with h | h
        · exact absurd (pdb_failMsg args ht clock dbw ci u h).1 (by simp [hex])
        · obtain ⟨hc, p, hp⟩ := ih false _ _ _ _ u h
          refine ⟨by simpa [prependEvents] using hc, ?_⟩
          refine ⟨Ev.workingOn dbw.name ::
            (processDB args ht clock dbw ci).events ++ p, ?_⟩
          simp [prependEvents, hp]
      · rw [dbl_timedOut args ht clock dbw rest tab dbc ci co hex] at h ⊢
        simp only [prependEvents, List.cons_append, List.mem_cons,
          List.mem_append, reduceCtorEq, false_or] at h
        rcases h with h | h
        · exact absurd (pdb_failMsg args ht clock dbw ci u h).1 (by simp [hex])
        · obtain ⟨hc, p, hp⟩ := ih true _ _ _ _ u h
          refine ⟨by simpa [prependEvents] using hc, ?_⟩
          refine ⟨Ev.workingOn dbw.name ::
            (processDB args ht clock dbw ci).events ++ p, ?_⟩
          simp [prependEvents, hp]
      · rw [dbl_fatal args ht clock dbw rest tab dbc ci co hex] at h ⊢
        simp only [List.mem_cons, reduceCtorEq, false_or] at h
        obtain ⟨-, p, hp⟩ := pdb_failMsg args ht clock dbw ci u h
        exact ⟨rfl, Ev.workingOn dbw.name :: p, by simp [hp]⟩
    · rw [dbl_break] at h
      simp only [prependEvents, List.cons_append, List.nil_append,
        List.mem_cons, reduceCtorEq, false_or] at h
      exact absurd h (finish_no_key true co tab dbc "" u).2.1

/-- In any database-loop run, no dispatch ever follows a halt message. -/
lemma dbl_ndah (args : Args) (ht : Int) (clock : Nat → Int)
    (dbs : List DBWorld) :
    ∀ te tab dbc ci co,
      noDispAfterHalt (dbLoop args ht clock dbs te tab dbc ci co).events := by
  induction dbs with
  | nil =>
    intro te tab dbc ci co
    rw [dbl_nil]
    exact ndah_of_no_halt _ (finish_no_key te co tab dbc "" "").2.2
  | cons dbw rest ih =>
    intro te tab dbc ci co
    cases te
    · cases hex : (processDB args ht clock dbw ci).exit
      · rw [dbl_cont args ht clock dbw rest tab dbc ci co hex]
        simp only [prependEvents]
        refine ndah_append _ _ ?_ (ih false _ _ _ _)
        intro hm
        simp only [List.mem_cons, reduceCtorEq, false_or] at hm
        exact absurd ((pdb_halt args ht clock dbw ci).1 hm) (by simp [hex])
      · rw [dbl_timedOut args ht clock dbw rest tab dbc ci co hex]
        simp only [prependEvents]
        obtain ⟨⟨p, hp, hnp⟩, -⟩ := (pdb_halt args ht clock dbw ci).2 hex
        rw [hp]
        have hre : (Ev.workingOn dbw.name :: (p ++ [Ev.haltMsg])) ++
            (dbLoop args ht clock rest true
              (tab + (processDB args ht clock dbw ci).tabs) (dbc + 1)
              (processDB args ht clock dbw ci).ci
              (processDB args ht clock dbw ci).connOpen).events =
            (Ev.workingOn dbw.name :: p) ++ Ev.haltMsg ::
              (dbLoop args ht clock rest true
                (tab + (processDB args ht clock dbw ci).tabs) (dbc + 1)
                (processDB args ht clock dbw ci).ci
                (processDB args ht clock dbw ci).connOpen).events := by
          simp
        rw [hre]
        refine ndah_mid _ _ ?_ (dbl_true_facts args ht clock rest _ _ _ _).1
        intro hm
        simp only [List.mem_cons, reduceCtorEq, false_or] at hm
        exact hnp hm
      · rw [dbl_fatal args ht clock dbw rest tab dbc ci co hex]
        refine ndah_of_no_halt _ ?_
        intro hm
        simp only [List.mem_cons, reduceCtorEq, false_or] at hm
        exact absurd ((pdb_halt args ht clock dbw ci).1 hm) (by simp [hex])
    · rw [dbl_break]
      simp only [prependEvents]
      refine ndah_of_no_halt _ ?_
      intro hm
      simp only [List.cons_append, List.nil_append, List.mem_cons,
        reduceCtorEq, false_or] at hm
      exact (finish_no_key true co tab dbc "" "").2.2 hm

/-- A halt message in the run's events means the run ends with
`time_exit` still set. -/
lemma dbl_halt_te (args : Args) (ht : Int) (clock : Nat → Int)
    (dbs : List DBWorld) :
    ∀ te tab dbc ci co,
      Ev.haltMsg ∈ (dbLoop args ht clock dbs te tab dbc ci co).events →
        (dbLoop args ht clock dbs te tab dbc ci co).time_exit = true := by
  induction dbs with
  | nil =>
    intro te tab dbc ci co h
    rw [dbl_nil] at h
    exact absurd h (finish_no_key te co tab dbc "" "").2.2
  | cons dbw rest ih =>
    intro te tab dbc ci co h
    cases te
    · cases hex : (processDB args ht clock dbw ci).exit
      · rw [dbl_cont args ht clock dbw rest tab dbc ci co hex] at h ⊢
        simp only [prependEvents, List.cons_append, List.mem_cons,
          List.mem_append, reduceCtorEq, false_or] at h
        rcases h with h | h
        · exact absurd ((pdb_halt args ht clock dbw ci).1 h) (by simp [hex])
        · simpa [prependEvents] using ih false _ _ _ _ h
      · rw [dbl_timedOut args ht clock dbw rest tab dbc ci co hex]
        simpa [prependEvents] using
          (dbl_true_facts args ht clock rest
            (tab + (processDB args ht clock dbw ci).tabs) (dbc + 1)
            (processDB args ht clock dbw ci).ci
            (processDB args ht clock dbw ci).connOpen).2.1
      · rw [dbl_fatal args ht clock dbw rest tab dbc ci co hex] at h
        simp only [List.mem_cons, reduceCtorEq, false_or] at h
        exact absurd ((pdb_halt args ht clock dbw ci).1 h) (by simp [hex])
    · rw [dbl_break]
      simpa [prependEvents, finishRun] using
        (dbl_true_facts args ht clock [] tab dbc ci co).2.1

/-- If a database-loop run ends with `time_exit` set then (given that an
already-set `time_exit` comes with an open connection) it exits with
status 0, does not crash, and printed the halted-summary line. -/
lemma dbl_te_inv (args : Args) (ht : Int) (clock : Nat → Int)
    (dbs : List DBWorld) :
    ∀ te tab dbc ci co, (te = true → co = true) →
      (dbLoop args ht clock dbs te tab dbc ci co).time_exit = true →
        (dbLoop args ht clock dbs te tab dbc ci co).exitCode = 0 ∧
        (dbLoop args ht clock dbs te tab dbc ci co).crashed = false ∧
        ∃ a b, Ev.summaryHalted a b ∈
          (dbLoop args ht clock dbs te tab dbc ci co).events := by
  induction dbs with
  | nil =>
    intro te tab dbc ci co hco h
    rw [dbl_nil] at h ⊢
    cases te
    · simp [finishRun] at h
      cases co <;> simp_all [finishRun]
    · rw [hco rfl]
      simp [finishRun]
  | cons dbw rest ih =>
    intro te tab dbc ci co hco h
    cases te
    · cases hex : (processDB args ht clock dbw ci).exit
      · rw [dbl_cont args ht clock dbw rest tab dbc ci co hex] at h ⊢
        simp only [prependEvents] at h ⊢
        obtain ⟨h0, h1, a, b, hm⟩ :=
          ih false _ _ _ _ (by simp) (by simpa using h)
        exact ⟨h0, h1, a, b, by simp [hm]⟩
      · rw [dbl_timedOut args ht clock dbw rest tab dbc ci co hex] at h ⊢
        simp only [prependEvents] at h ⊢
        obtain ⟨-, hopen⟩ := (pdb_halt args ht clock dbw ci).2 hex
        obtain ⟨h0, h1, a, b, hm⟩ :=
          ih true _ _ _ _ (fun _ => hopen) (by simpa using h)
        exact ⟨h0, h1, a, b, by simp [hm]⟩
      · rw [dbl_fatal args ht clock dbw rest tab dbc ci co hex] at h
        simp at h
    · rw [dbl_break] at h ⊢
      rw [hco rfl] at h ⊢
      simp [prependEvents, finishRun]

/-- A database-scoped exclusion map yields `false` whenever every entry
either names a different database or does not list the table. -/
lemma dtmExcludes_eq_false_of :
    ∀ (dtm : List (String × List String)) (db t : String),
      (∀ p ∈ dtm, p.1 ≠ db ∨ t ∉ p.2) → dtmExcludes dtm db t = false
  | [], _, _, _ => rfl
  | q :: rest, db, t, h => by
    by_cases hq : q.1 = db
    · rcases h q (List.mem_cons_self q rest) with hne | hnm
      · exact absurd hq hne
      · unfold dtmExcludes
        rw [List.find?_cons_of_pos _ (by simpa using hq)]
        simpa using hnm
    · unfold dtmExcludes
      rw [List.find?_cons_of_neg _ (by simpa using hq)]
      have hr := dtmExcludes_eq_false_of rest db t
        (fun p hp => h p (List.mem_cons_of_mem q hp))
      unfold dtmExcludes at hr
      exact hr

/-- The exclusion-argument list parses successfully (from any starting
map) exactly when every argument splits on '.' into two parts. -/
lemma parseETD_ok_iff :
    ∀ (l : List String) (dtm : List (String × List String)),
      (∃ m, parseETD l dtm = Except.ok m) ↔
        ∀ e ∈ l, (pySplitDot e).length = 2 := by
  intro l
  induction l with
  | nil => intro dtm; simp [parseETD]
  | cons e rest ih =>
    intro dtm
    rcases hsp : pySplitDot e with _ | ⟨a, _ | ⟨b, _ | ⟨c, l3⟩⟩⟩
    · simp [parseETD, hsp]
    · simp [parseETD, hsp]
    · simp only [parseETD, hsp, List.mem_cons]
      rw [show (∀ e2, e2 = e ∨ e2 ∈ rest → (pySplitDot e2).length = 2) ↔
          ((pySplitDot e).length = 2 ∧
            ∀ e2 ∈ rest, (pySplitDot e2).length = 2) by
        constructor
        · intro hh
          exact ⟨hh e (Or.inl rfl), fun e2 he2 => hh e2 (Or.inr he2)⟩
        · rintro ⟨h1, h2⟩ e2 (rfl | he2)
          · exact h1
          · exact h2 e2 he2]
      rw [hsp]
      simp [ih (dtmInsert dtm a b)]
    · simp [parseETD, hsp]

/-- Top-level form of the parse criterion: the script reaches the
database loop (rather than `exit(2)`) iff every
`--exclude-table-in-database` argument has exactly two dot-parts. -/
lemma parseETDOk_iff (l : List String) :
    parseETDOk l = true ↔ ∀ e ∈ l, (pySplitDot e).length = 2 := by
  rw [← parseETD_ok_iff l []]
  unfold parseETDOk parseExcludeTableInDatabase
  cases h : parseETD l [] <;> simp [h]

/-! ### Claim theorems -/

/-- C1: CONTRARY to the claim, a failure with exactly the lock-timeout
error is not a mere skip: the handler prints the skip message
(`lockSkipMsg`), but then falls through to the unconditional
`sys.exit(1)` of line 392, so the run stops with exit status 1 and the
next candidate `tb` is never dispatched. -/
theorem c1_lock_timeout_skip_still_fatal :
    c1run = ⟨[Ev.workingOn "d", Ev.setStmtTimeout 0, Ev.setLockTimeout 5000,
      Ev.dispatch "d" "ta", Ev.lockSkipMsg "ta"], 1, false, 1, 1, false⟩ := by
  decide

/-- C2: an operation error other than the lock-timeout message is fatal
to the whole run: the handler reports the failure (the `failMsg`) and
exits; in any run a `failMsg` forces exit status 1 and is the final
event, so no further table in any database is attempted. -/
theorem c2_other_error_fatal :
    (∀ (args : Args) (ht now : Int) (dn t m : String),
      args.dryRun = false → pyRstrip m ≠ lockTimeoutMsg →
        (attemptOp args ht now dn t (OpResult.err m)).2 = true ∧
        ∃ p, (attemptOp args ht now dn t (OpResult.err m)).1 =
          p ++ [Ev.failMsg t]) ∧
    (∀ (args : Args) (ht : Int) (clock : Nat → Int) (dbs : List DBWorld)
        (u : String),
      Ev.failMsg u ∈ (flexibleFreezeRun args ht clock dbs).events →
        (flexibleFreezeRun args ht clock dbs).exitCode = 1 ∧
        ∃ p, (flexibleFreezeRun args ht clock dbs).events =
          p ++ [Ev.failMsg u]) := by
  constructor
  · intro args ht now dn t m hd hm
    constructor
    · simp [attemptOp, hd]
    · refine ⟨Ev.setStmtTimeout
          (if args.enforcetime then (ht - now) + 30 else 0) ::
        (if pyTruthyOptInt args.lockTimeout then
          [Ev.setLockTimeout (args.lockTimeout.getD 0)] else []) ++
        [Ev.dispatch dn t], ?_⟩
      simp [attemptOp, hd, hm]
  · intro args ht clock dbs u h
    exact dbl_failMsg args ht clock dbs false 0 0 0 false u h

/-- C2 witness: a concrete run with a non-lock-timeout failure stops
with exit status 1, and the attempt's fatal flag is set. -/
theorem c2_witness :
    (attemptOp plainArgs 1000 0 "wd" "wa"
      (OpResult.err "relation does not exist")).2 = true ∧
    w2run.exitCode = 1 :=
  ⟨(c2_other_error_fatal.1 plainArgs 1000 0 "wd" "wa"
      "relation does not exist" rfl (by decide)).1,
    (c2_other_error_fatal.2 plainArgs 1000 (fun _ => 0) [w2db] "wa"
      (by decide)).1⟩

/-- C3 counterexample: a run halted by the deadline still reaches the
`sys.exit(0)` of line 408 — its exit status is 0, the same as a fully
completed run, not a distinct non-zero status as claimed. -/
theorem c3_halted_exit_counterexample :
    c3run.time_exit = true ∧ c3run.exitCode = 0 := by decide

/-- C3 (amended): when the run is halted by the deadline it prints the
halted summary and exits with status 0 (and does not crash), so an early
deadline halt is distinguishable from success only by the summary text,
never by the exit status. -/
theorem c3_halted_exit_amended (args : Args) (ht : Int) (clock : Nat → Int)
    (dbs : List DBWorld)
    (h : (flexibleFreezeRun args ht clock dbs).time_exit = true) :
    (flexibleFreezeRun args ht clock dbs).exitCode = 0 ∧
    (flexibleFreezeRun args ht clock dbs).crashed = false ∧
    ∃ a b, Ev.summaryHalted a b ∈
      (flexibleFreezeRun args ht clock dbs).events :=
  dbl_te_inv args ht clock dbs false 0 0 0 false (fun hf => hf) h

/-- C3 amended witness: the concrete halted run exits 0. -/
theorem c3_amended_witness :
    (flexibleFreezeRun plainArgs 0 (fun _ => 5)
      [⟨"d", true, ["t"], fun _ => OpResult.ok⟩]).exitCode = 0 :=
  (c3_halted_exit_amended plainArgs 0 (fun _ => 5)
    [⟨"d", true, ["t"], fun _ => OpResult.ok⟩] (by decide)).1

/-- C4: a candidate that is globally excluded, or excluded for the
current database, is never dispatched; the skip happens before the halt
check (the excluded-only run below never trips `time_exit` even with the
deadline in the past); and a database-scoped exclusion for `d1` does not
affect the same table name in `d2`, which is still dispatched. -/
theorem c4_exclusion_filtering :
    (∀ (args : Args) (ht : Int) (clock : Nat → Int) (dbs : List DBWorld)
        (d u : String),
      (dtmExcludes args.dtm d u = true ∨ u ∈ args.tablesToExclude) →
        Ev.dispatch d u ∉ (flexibleFreezeRun args ht clock dbs).events) ∧
    Ev.dispatch "d2" "t" ∈ c4crossRun.events ∧
    c4haltRun.time_exit = false ∧
    Ev.dispatch "e" "x" ∉ c4haltRun.events := by
  refine ⟨?_, by decide, by decide, by decide⟩
  intro args ht clock dbs d u hex h
  obtain ⟨hd, hg⟩ := dbl_dispatch_mem args ht clock dbs false 0 0 0 false d u h
  rcases hex with hex | hex
  · simp [hd] at hex
  · exact hg hex

/-- C4 witness: a globally excluded table is not dispatched in a
concrete run that offers it as a candidate. -/
theorem c4_witness :
    Ev.dispatch "d" "t" ∉ (flexibleFreezeRun w4args 1000 (fun _ => 0)
      [⟨"d", true, ["t"], fun _ => OpResult.ok⟩]).events :=
  c4_exclusion_filtering.1 w4args 1000 (fun _ => 0)
    [⟨"d", true, ["t"], fun _ => OpResult.ok⟩] "d" "t" (Or.inr (by decide))

/-- C5: in the two-database end-to-end scenario the freeze query indeed
selects exactly `t1`, and `d2`'s failed connection is reported and
skipped — but the run then crashes at line 396 (`conn.close()` with
`conn = None`): no summary line is emitted, the exit status is 1 rather
than 0, and `dbcount` (incremented at line 241, before connecting)
counts the skipped `d2`, giving 2 databases rather than 1. -/
theorem c5_scenario_diverges :
    freezeQuery 10000000 0 c5stats = ["t1"] ∧
    c5run = ⟨[Ev.workingOn "d1", Ev.setStmtTimeout 0, Ev.dispatch "d1" "t1",
      Ev.workingOn "d2", Ev.dbSkipConnect "d2"], 1, true, 1, 2, false⟩ := by
  constructor <;> decide

/-- C6: with a single-table override `t` (a truthy table name) on a
connected database, if `t` is not among the query's candidates the body
reports "not found or excluded" and finishes that database with zero
tables processed and no dispatch; if it is, the iterated candidate
sequence is exactly `[t]`. -/
theorem c6_single_table_override (args : Args) (ht : Int)
    (clock : Nat → Int) (dbw : DBWorld) (ci : Nat) (t : String)
    (hov : args.tableOverride = some t) (hne : t ≠ "")
    (hc : dbw.connectOk = true) :
    (t ∉ dbw.tablist →
      processDB args ht clock dbw ci =
        ⟨[Ev.notFound dbw.name t], LoopExit.cont, 0, ci, true⟩) ∧
    (t ∈ dbw.tablist →
      effTablist dbw.tablist args.tableOverride = some [t] ∧
      processDB args ht clock dbw ci =
        ⟨(tableLoop args ht clock dbw [t] ci).events,
          (tableLoop args ht clock dbw [t] ci).exit,
          (tableLoop args ht clock dbw [t] ci).tabs,
          (tableLoop args ht clock dbw [t] ci).ci, true⟩) := by
  constructor
  · intro hm
    have he : effTablist dbw.tablist args.tableOverride = none := by
      simp [effTablist, hov, hne, hm]
    rw [pdb_notfound args ht clock dbw ci hc he]
    simp [hov]
  · intro hm
    have he : effTablist dbw.tablist args.tableOverride = some [t] := by
      simp [effTablist, hov, hne, hm]
    exact ⟨he, pdb_run args ht clock dbw ci [t] hc he⟩

/-- C6 witness: override `t3` missing from the candidates of `c6db`
yields exactly the "not found" report and zero tables. -/
theorem c6_witness :
    processDB c6args 100 (fun _ => 0) c6db 0 =
      ⟨[Ev.notFound "db" "t3"], LoopExit.cont, 0, 0, true⟩ :=
  (c6_single_table_override c6args 100 (fun _ => 0) c6db 0 "t3" rfl
    (by decide) rfl).1 (by decide)

/-- C7: once the halt decision is taken (the `haltMsg` of line 336), no
dispatch ever follows anywhere in the rest of the run, and the run ends
with `time_exit` still set — the flag is never cleared. -/
theorem c7_timedout_stops_dispatch (args : Args) (ht : Int)
    (clock : Nat → Int) (dbs : List DBWorld) (pre suf : List Ev)
    (h : (flexibleFreezeRun args ht clock dbs).events =
      pre ++ Ev.haltMsg :: suf) :
    (∀ d u, Ev.dispatch d u ∉ suf) ∧
    (flexibleFreezeRun args ht clock dbs).time_exit = true := by
  constructor
  · exact ndah_extract pre suf
      (h ▸ dbl_ndah args ht clock dbs false 0 0 0 false)
  · refine dbl_halt_te args ht clock dbs false 0 0 0 false ?_
    show Ev.haltMsg ∈ (flexibleFreezeRun args ht clock dbs).events
    rw [h]
    exact List.mem_append_right pre (List.mem_cons_self _ _)

/-- C7 witness: in the concrete halted run, nothing after the halt
message is a dispatch, and the flag stays set. -/
theorem c7_witness :
    Ev.dispatch "d" "t" ∉ [Ev.summaryHalted 0 1] ∧ c3run.time_exit = true := by
  have h := c7_timedout_stops_dispatch plainArgs 0 (fun _ => 5)
    [⟨"d", true, ["t"], fun _ => OpResult.ok⟩] [Ev.workingOn "d"]
    [Ev.summaryHalted 0 1] (by decide)
  exact ⟨h.1 "d" "t", h.2⟩

/-- C8: for a non-dry-run attempt on a table that passed the exclusion
checks and the halt check, the first thing the attempt does is set the
statement timeout — to 0 when `--enforce-time` is off and to
`(haltTime - now) + 30` (remaining window seconds plus the 30-second
grace) when it is on, `now` being the fresh clock sample of line 343 —
followed only by the optional lock-timeout SET and then the VACUUM. -/
theorem c8_statement_timeout (args : Args) (ht : Int) (clock : Nat → Int)
    (dbw : DBWorld) (t : String) (rest : List String) (ci : Nat)
    (hd : args.dryRun = false)
    (h1 : dtmExcludes args.dtm dbw.name t = false)
    (h2 : t ∉ args.tablesToExclude) (h3 : ¬ht ≤ clock ci) :
    ∃ tail,
      (tableLoop args ht clock dbw (t :: rest) ci).events =
        Ev.setStmtTimeout
            (if args.enforcetime then (ht - clock (ci + 1)) + 30 else 0) ::
          (if pyTruthyOptInt args.lockTimeout then
            [Ev.setLockTimeout (args.lockTimeout.getD 0)] else []) ++
          Ev.dispatch dbw.name t :: tail := by
  by_cases h4 : (attemptOp args ht (clock (ci + 1)) dbw.name t
      (dbw.opResult t)).2 = true
  · rw [tl_cons_fatal args ht clock dbw t rest ci h1 h2 h3 h4]
    cases hres : dbw.opResult t with
    | ok => exact absurd h4 (by simp [attemptOp, hd, hres])
    | err m =>
      refine ⟨[if pyRstrip m = lockTimeoutMsg then Ev.lockSkipMsg t
        else Ev.failMsg t], ?_⟩
      simp [attemptOp, hd, hres]
  · rw [Bool.not_eq_true] at h4
    rw [tl_cons_step args ht clock dbw t rest ci h1 h2 h3 h4]
    cases hres : dbw.opResult t with
    | ok =>
      refine ⟨(tableLoop args ht clock dbw rest
        (if args.enforcetime then ci + 2 else ci + 1)).events, ?_⟩
      simp [attemptOp, hd, hres]
    | err m =>
      exact absurd h4 (by simp [attemptOp, hd, hres])

/-- C8 witness: with `--enforce-time`, a 100-tick deadline and the clock
at 1, the attempt opens with `SET statement_timeout` to
`(100 - 1) + 30 = 129`, then the lock timeout, then the VACUUM. -/
theorem c8_witness :
    (tableLoop c8args 100 (fun _ => 1) c8db ["t"] 0).events.take 3 =
      [Ev.setStmtTimeout 129, Ev.setLockTimeout 3000,
        Ev.dispatch "d" "t"] := by
  obtain ⟨tail, h⟩ := c8_statement_timeout c8args 100 (fun _ => 1)
    c8db "t" [] 0 rfl (by decide) (by decide) (by decide)
  rw [h]
  rfl

/-- C9: CONTRARY to the claim, the completion path is not crash-free:
when the last database in the target list fails to connect, `conn` is
`None` at line 396 and `conn.close()` raises `AttributeError`, so the
process dies with a non-zero status and the final summary (with counts)
is never emitted. -/
theorem c9_close_crashes_on_failed_last_connect :
    c9run = ⟨[Ev.workingOn "dbA", Ev.setStmtTimeout 0,
      Ev.dispatch "dbA" "x", Ev.workingOn "dbB", Ev.dbSkipConnect "dbB"],
      1, true, 1, 2, false⟩ := by decide

/-- C10: the `--exclude-table-in-database` parse reaches the database
loop iff every argument splits on '.' into exactly two parts (so
'a.b.c' exits with status 2 before any database work), while 'db.' and
'.tab' are accepted, producing map entries with an empty table
(respectively database) part that can never match a real — nonempty —
table or database name. -/
theorem c10_exclude_arg_parse :
    (∀ l : List String,
      parseETDOk l = true ↔ ∀ e ∈ l, (pySplitDot e).length = 2) ∧
    parseExcludeTableInDatabase ["a.b.c"] = Except.error 2 ∧
    parseExcludeTableInDatabase ["db.", ".tab"] =
      Except.ok [("db", [""]), ("", ["tab"])] ∧
    (∀ t : String, t ≠ "" →
      dtmExcludes [("db", [""]), ("", ["tab"])] "db" t = false) ∧
    (∀ d : String, d ≠ "" →
      dtmExcludes [("db", [""]), ("", ["tab"])] d "tab" = false) := by
  refine ⟨parseETDOk_iff, rfl, rfl, ?_, ?_⟩
  · intro t ht
    refine dtmExcludes_eq_false_of _ _ _ ?_
    intro p hp
    simp only [List.mem_cons, List.not_mem_nil, or_false] at hp
    rcases hp with rfl | rfl
    · exact Or.inr (by simpa using ht)
    · exact Or.inl (by simp)
  · intro d hd
    refine dtmExcludes_eq_false_of _ _ _ ?_
    intro p hp
    simp only [List.mem_cons, List.not_mem_nil, or_false] at hp
    rcases hp with rfl | rfl
    · exact Or.inr (by simp)
    · exact Or.inl (Ne.symm hd)

/-- C10 witness: a well-formed argument list parses, and a malformed one
is rejected, as the criterion predicts. -/
theorem c10_witness : parseETDOk ["x.y"] = true :=
  (c10_exclude_arg_parse.1 ["x.y"]).mpr (by decide)
